import Mathlib

/-
Verification of the Able Account encrypted account-credential tracker
(src/db/database.js) against its natural-language specification.

Shallow embedding conventions:
* JS strings are modelled as lists of UTF-16 code units (`List Nat`);
  `trim`, `toLowerCase` and `slice` act on code units exactly as in JS
  (`toLowerCase` is given on the ASCII range exercised by the data).
* Timestamps are modelled as their millisecond epoch values (`Int`), the
  value JS `Date` arithmetic and comparisons actually operate on.
* JS numbers are modelled as integers (`Int`); the repository only ever
  stores and compares integral numeric values.
* The opaque blob store (`browserAPI.storage.local`) is a record of its
  two keys; a write that the platform rejects is modelled by a `writeOk`
  flag passed to the operation.
* `crypto.getRandomValues` results (salts, AES-GCM nonces) are threaded
  in as explicit fresh values; AES-GCM authenticated encryption is
  modelled symbolically: a ciphertext remembers the key and nonce it was
  produced under and decryption succeeds exactly under that key and
  nonce (the ideal-cipher reading of authenticated encryption).
* The module-level globals `db`, `_cryptoKey`, `_cryptoSalt` form the
  `Session` state; `browserAPI.storage.local` is the `Store` state; the
  functions of database.js are state-passing functions over these.
-/

/- ===== JS string primitives (UTF-16 code units) ===== -/

/-- Code units of a Lean string literal, used to write JS string constants. -/
def cu (s : String) : List Nat := s.data.map Char.toNat

/-- White-space test of JS `String.prototype.trim` (WhiteSpace ∪ LineTerminator). -/
def jsIsSpace (n : Nat) : Bool :=
  decide (n = 9 ∨ n = 10 ∨ n = 11 ∨ n = 12 ∨ n = 13 ∨ n = 32 ∨ n = 160 ∨
    n = 5760 ∨ (8192 ≤ n ∧ n ≤ 8202) ∨ n = 8232 ∨ n = 8233 ∨ n = 8239 ∨
    n = 8287 ∨ n = 12288 ∨ n = 65279)

/-- One code unit of JS `String.prototype.toLowerCase` (ASCII range). -/
def jsLowerCU (n : Nat) : Nat :=
  if 65 ≤ n ∧ n ≤ 90 then n + 32 else n

/-- JS `s.toLowerCase()`. -/
def jsLower (s : List Nat) : List Nat := s.map jsLowerCU

/-- JS `s.trim()`: strip leading and trailing white space. -/
def jsTrim (s : List Nat) : List Nat :=
  ((s.dropWhile jsIsSpace).reverse.dropWhile jsIsSpace).reverse

/-- JS `s.slice(0, n)` (code-unit count). -/
def jsSlice (n : Nat) (s : List Nat) : List Nat := s.take n

theorem jsIsSpace_lowerCU (n : Nat) : jsIsSpace (jsLowerCU n) = jsIsSpace n := by
  unfold jsIsSpace jsLowerCU
  split
  · next h => simp only [decide_eq_decide]; omega
  · rfl

theorem jsIsSpace_comp_lower : jsIsSpace ∘ jsLowerCU = jsIsSpace :=
  funext jsIsSpace_lowerCU

theorem jsLower_jsTrim (s : List Nat) : jsLower (jsTrim s) = jsTrim (jsLower s) := by
  have hd : ∀ l : List Nat, (l.map jsLowerCU).dropWhile jsIsSpace =
      (l.dropWhile jsIsSpace).map jsLowerCU := by
    intro l
    rw [List.dropWhile_map, jsIsSpace_comp_lower]
  unfold jsLower jsTrim
  rw [hd, ← List.map_reverse, hd, ← List.map_reverse]

theorem jsTrim_length_le (s : List Nat) : (jsTrim s).length ≤ s.length := by
  unfold jsTrim
  calc ((s.dropWhile jsIsSpace).reverse.dropWhile jsIsSpace).reverse.length
      = ((s.dropWhile jsIsSpace).reverse.dropWhile jsIsSpace).length := by
        rw [List.length_reverse]
    _ ≤ (s.dropWhile jsIsSpace).reverse.length :=
        (List.dropWhile_sublist jsIsSpace).length_le
    _ = (s.dropWhile jsIsSpace).length := by rw [List.length_reverse]
    _ ≤ s.length := (List.dropWhile_sublist jsIsSpace).length_le

theorem jsSlice_jsTrim_of_le (s : List Nat) (n : Nat) (h : s.length ≤ n) :
    jsSlice n (jsTrim s) = jsTrim s := by
  unfold jsSlice
  exact List.take_of_length_le (le_trans (jsTrim_length_le s) h)

/- ===== Status / derivation logic (calcStatus, daysUntilDue) ===== -/

/-- Milliseconds per day, `24 * 60 * 60 * 1000` as in the source. -/
def dayMs : Int := 24 * 60 * 60 * 1000

inductive Status
  | overdue
  | due_soon
  | good
deriving DecidableEq, Repr

/-- The two fields of an account record that `calcStatus` and `daysUntilDue`
read: `last_password_change` as a parsed epoch-millisecond time (`none` for
the JS-falsy absent case) and `refresh_interval_days` (`none` for a NULL
column value, which is falsy in `account.refresh_interval_days || 90`). -/
structure StatusRecord where
  last_password_change : Option Int
  refresh_interval_days : Option Int
deriving DecidableEq, Repr

/-- JS `account.refresh_interval_days || 90`: both an absent/NULL value and
the falsy number 0 fall back to 90. -/
def jsOrInterval : Option Int → Int
  | none => 90
  | some v => if v = 0 then 90 else v

/-- Embedding of `calcStatus(account, now)` from src/db/database.js. -/
def calcStatus (a : StatusRecord) (now : Int) : Status :=
  match a.last_password_change with
  | none => Status.overdue
  | some lastChange =>
    let intervalMs := jsOrInterval a.refresh_interval_days * dayMs
    let dueDate := lastChange + intervalMs
    let warningDate := dueDate - 7 * dayMs
    if dueDate ≤ now then Status.overdue
    else if warningDate ≤ now then Status.due_soon
    else Status.good

/-- JS `Math.ceil(a / d)` on integers, `d > 0`. -/
def jsCeilDiv (a d : Int) : Int := -((-a).fdiv d)

/-- Embedding of `daysUntilDue(account)` from src/db/database.js, with the
instant the source reads from `new Date()` passed in as `now`. -/
def daysUntilDue (a : StatusRecord) (now : Int) : Int :=
  match a.last_password_change with
  | none => -999
  | some lastChange =>
    let dueDate := lastChange + jsOrInterval a.refresh_interval_days * dayMs
    jsCeilDiv (dueDate - now) dayMs

theorem calcStatus_some (a : StatusRecord) (lc : Int)
    (h : a.last_password_change = some lc) (now : Int) :
    calcStatus a now =
      (if lc + jsOrInterval a.refresh_interval_days * dayMs ≤ now then Status.overdue
       else if lc + jsOrInterval a.refresh_interval_days * dayMs - 7 * dayMs ≤ now then
         Status.due_soon
       else Status.good) := by
  unfold calcStatus
  rw [h]

theorem daysUntilDue_some (a : StatusRecord) (lc : Int)
    (h : a.last_password_change = some lc) (now : Int) :
    daysUntilDue a now =
      jsCeilDiv (lc + jsOrInterval a.refresh_interval_days * dayMs - now) dayMs := by
  unfold daysUntilDue
  rw [h]

/-- C5: for every record and instant, `calcStatus` returns exactly one of
{overdue, due_soon, good}: overdue iff `last_password_change` is absent or
`now ≥ dueDate` (`dueDate = last_password_change + refresh_interval_days`
days), due_soon iff `now` lies in the 7 days strictly before `dueDate`,
good otherwise; and when `last_password_change` is present, an overdue
status implies `daysUntilDue ≤ 0` at the same instant. -/
theorem calcStatus_spec (a : StatusRecord) (now : Int) :
    (calcStatus a now = Status.overdue ↔
      a.last_password_change = none ∨
      ∃ lc, a.last_password_change = some lc ∧
        lc + jsOrInterval a.refresh_interval_days * dayMs ≤ now) ∧
    (calcStatus a now = Status.due_soon ↔
      ∃ lc, a.last_password_change = some lc ∧
        lc + jsOrInterval a.refresh_interval_days * dayMs - 7 * dayMs ≤ now ∧
        now < lc + jsOrInterval a.refresh_interval_days * dayMs) ∧
    (calcStatus a now = Status.good ↔
      ∃ lc, a.last_password_change = some lc ∧
        now < lc + jsOrInterval a.refresh_interval_days * dayMs - 7 * dayMs) ∧
    (∀ lc, a.last_password_change = some lc → calcStatus a now = Status.overdue →
      daysUntilDue a now ≤ 0) := by
  rcases h : a.last_password_change with _ | lc
  · refine ⟨by simp [calcStatus, h], by simp [calcStatus, h], by simp [calcStatus, h], ?_⟩
    intro lc hlc _
    exact Option.noConfusion hlc
  · rw [calcStatus_some a lc h]
    have hday : (0:Int) < dayMs := by decide
    refine ⟨?_, ?_, ?_, ?_⟩
    · constructor
      · intro hov
        by_cases h1 : lc + jsOrInterval a.refresh_interval_days * dayMs ≤ now
        · exact Or.inr ⟨lc, rfl, h1⟩
        · exfalso
          rw [if_neg h1] at hov
          split_ifs at hov
      · rintro (hn | ⟨lc', hlc', hle⟩)
        · cases hn
        · cases hlc'
          rw [if_pos hle]
    · constructor
      · intro hds
        by_cases h1 : lc + jsOrInterval a.refresh_interval_days * dayMs ≤ now
        · rw [if_pos h1] at hds; cases hds
        · rw [if_neg h1] at hds
          by_cases h2 : lc + jsOrInterval a.refresh_interval_days * dayMs - 7 * dayMs ≤ now
          · exact ⟨lc, rfl, h2, by omega⟩
          · rw [if_neg h2] at hds; cases hds
      · rintro ⟨lc', hlc', hle, hlt⟩
        cases hlc'
        rw [if_neg (by omega), if_pos hle]
    · constructor
      · intro hg
        by_cases h1 : lc + jsOrInterval a.refresh_interval_days * dayMs ≤ now
        · rw [if_pos h1] at hg; cases hg
        · rw [if_neg h1] at hg
          by_cases h2 : lc + jsOrInterval a.refresh_interval_days * dayMs - 7 * dayMs ≤ now
          · rw [if_pos h2] at hg; cases hg
          · exact ⟨lc, rfl, by omega⟩
      · rintro ⟨lc', hlc', hlt⟩
        cases hlc'
        rw [if_neg (by omega), if_neg (by omega)]
    · intro lc' hlc' hov
      cases hlc'
      rw [daysUntilDue_some a lc h]
      by_cases h1 : lc + jsOrInterval a.refresh_interval_days * dayMs ≤ now
      · have h0 : (0:Int) ≤
            (-(lc + jsOrInterval a.refresh_interval_days * dayMs - now)).fdiv dayMs :=
          Int.fdiv_nonneg (by omega) (by decide)
        unfold jsCeilDiv
        omega
      · exfalso
        rw [if_neg h1] at hov
        split_ifs at hov

/-- Witness for C5 at the spec's own scenario: interval 30 days, change at
time 0; at day 31 the status is overdue (and days-until-due is nonpositive),
at day 25 due_soon, at day 10 good. -/
theorem calcStatus_spec_witness :
    calcStatus ⟨some 0, some 30⟩ (31 * dayMs) = Status.overdue ∧
    calcStatus ⟨some 0, some 30⟩ (25 * dayMs) = Status.due_soon ∧
    calcStatus ⟨some 0, some 30⟩ (10 * dayMs) = Status.good ∧
    daysUntilDue ⟨some 0, some 30⟩ (31 * dayMs) ≤ 0 := by
  refine ⟨((calcStatus_spec ⟨some 0, some 30⟩ (31 * dayMs)).1).mpr
      (Or.inr ⟨0, rfl, by decide⟩),
    ((calcStatus_spec ⟨some 0, some 30⟩ (25 * dayMs)).2.1).mpr
      ⟨0, rfl, by decide, by decide⟩,
    ((calcStatus_spec ⟨some 0, some 30⟩ (10 * dayMs)).2.2.1).mpr
      ⟨0, rfl, by decide⟩,
    (calcStatus_spec ⟨some 0, some 30⟩ (31 * dayMs)).2.2.2 0 rfl
      (((calcStatus_spec ⟨some 0, some 30⟩ (31 * dayMs)).1).mpr
        (Or.inr ⟨0, rfl, by decide⟩))⟩

/- ===== Record repository data model ===== -/

/-- A JS primitive value appearing in an account field position. -/
inductive JSPrim
  | str (s : List Nat)
  | num (n : Int)
deriving DecidableEq, Repr

/-- A value stored in a SQLite column. -/
inductive SqlVal
  | int (n : Int)
  | text (s : List Nat)
deriving DecidableEq, Repr

def isDigitCU (c : Nat) : Bool := decide (48 ≤ c ∧ c ≤ 57)

def digitsToNat (l : List Nat) : Nat := l.foldl (fun a c => a * 10 + (c - 48)) 0

/-- Whole-string decimal parse used by SQLite integer affinity. -/
def parseAllDigits (l : List Nat) : Option Nat :=
  if l ≠ [] ∧ l.all isDigitCU then some (digitsToNat l) else none

def parseExactInt (s : List Nat) : Option Int :=
  match s with
  | 43 :: r => (parseAllDigits r).map (fun n => (n : Int))
  | 45 :: r => (parseAllDigits r).map (fun n => -(n : Int))
  | _ => (parseAllDigits s).map (fun n => (n : Int))

/-- SQLite INTEGER column affinity: well-formed integer text is converted
to an integer on storage, other values are stored as given. -/
def intAffinity : JSPrim → SqlVal
  | .num n => .int n
  | .str s =>
    match parseExactInt s with
    | some n => .int n
    | none => .text s

/-- SQLite TEXT column affinity: numeric values are converted to their
decimal text, text is stored as given. -/
def textAffinity : JSPrim → List Nat
  | .str s => s
  | .num n => cu (toString n)

/-- One row of the `accounts` table. -/
structure Record where
  id : Nat
  service_name : List Nat
  url : List Nat
  username : List Nat
  category : List Nat
  refresh_interval_days : SqlVal
  last_password_change : List Nat
  date_added : List Nat
  notes : List Nat
deriving DecidableEq, Repr

/-- In-memory sql.js database: the `accounts` rows plus the AUTOINCREMENT
high-water mark (`sqlite_sequence`), which `DELETE FROM accounts` does not
reset. -/
structure DBFile where
  rows : List Record
  seq : Nat
deriving DecidableEq, Repr

/-- The freshly created database of the `CREATE TABLE` branch of `initDB`. -/
def emptyDBFile : DBFile := { rows := [], seq := 0 }

/-- JS `x || d` for string-valued fields: an absent property and the falsy
empty string both fall back to the default. -/
def jsOrStr (x : Option (List Nat)) (d : List Nat) : List Nat :=
  match x with
  | none => d
  | some s => if s = [] then d else s

/-- JS `x || 90` for a `refresh_interval_days` argument: absent, the number
0 and the empty string are falsy and fall back to 90. -/
def jsOrNum90 : Option JSPrim → JSPrim
  | none => .num 90
  | some (.num n) => if n = 0 then .num 90 else .num n
  | some (.str s) => if s = [] then .num 90 else .str s

/-- The argument object of `addAccount` (an absent property is `none`). -/
structure AddFields where
  service_name : List Nat
  url : Option (List Nat)
  username : Option (List Nat)
  category : Option (List Nat)
  refresh_interval_days : Option JSPrim
  last_password_change : Option (List Nat)
  notes : Option (List Nat)
deriving DecidableEq, Repr

/-- Embedding of `addAccount(fields)` from src/db/database.js: inserts one
row with the JS `||` defaults, `date_added` set to the current instant, and
the id assigned by AUTOINCREMENT. The second component is the JS return
value of the function, which has no return statement (`none` =
`undefined`). The `saveDB` call is composed on top by `addAccountOp`. -/
def addAccount (f : AddFields) (now : List Nat) (db : DBFile) : DBFile × Option Nat :=
  let dateAdded := now
  let r : Record := {
    id := db.seq + 1
    service_name := f.service_name
    url := jsOrStr f.url []
    username := jsOrStr f.username []
    category := jsOrStr f.category (cu ("general"))
    refresh_interval_days := intAffinity (jsOrNum90 f.refresh_interval_days)
    last_password_change := jsOrStr f.last_password_change dateAdded
    date_added := dateAdded
    notes := jsOrStr f.notes [] }
  ({ rows := db.rows ++ [r], seq := db.seq + 1 }, none)

/-- The column names in `updateAccount`'s `allowed` list. -/
def allowedFields : List (List Nat) :=
  [cu ("service_name"), cu ("url"), cu ("username"), cu ("category"),
   cu ("refresh_interval_days"), cu ("last_password_change"), cu ("notes")]

/-- Effect of one `SET column = ?` item on a row, with SQLite column
affinity applied to the bound JS value. -/
def setField (r : Record) (k : List Nat) (v : JSPrim) : Record :=
  if k = cu ("service_name") then { r with service_name := textAffinity v }
  else if k = cu ("url") then { r with url := textAffinity v }
  else if k = cu ("username") then { r with username := textAffinity v }
  else if k = cu ("category") then { r with category := textAffinity v }
  else if k = cu ("refresh_interval_days") then
    { r with refresh_interval_days := intAffinity v }
  else if k = cu ("last_password_change") then
    { r with last_password_change := textAffinity v }
  else if k = cu ("notes") then { r with notes := textAffinity v }
  else r

/-- Embedding of `updateAccount(id, fields)` from src/db/database.js:
`fields` is the `Object.entries` list of the argument object; the boolean
records whether the function reached its `saveDB` call (`false` on the
empty-`sets` early return). -/
def updateAccount (id : Nat) (fields : List (List Nat × JSPrim)) (db : DBFile) :
    DBFile × Bool :=
  let sets := fields.filter (fun kv => kv.1 ∈ allowedFields)
  if sets = [] then (db, false)
  else
    ({ db with rows := db.rows.map (fun r =>
        if r.id = id then sets.foldl (fun r' kv => setField r' kv.1 kv.2) r else r) },
     true)

/-- Embedding of `deleteAccount(id)` from src/db/database.js. -/
def deleteAccount (id : Nat) (db : DBFile) : DBFile :=
  { db with rows := db.rows.filter (fun r => r.id ≠ id) }

/-- Embedding of `markRefreshed(id)` from src/db/database.js. -/
def markRefreshed (id : Nat) (now : List Nat) (db : DBFile) : DBFile :=
  { db with rows := db.rows.map (fun r =>
      if r.id = id then { r with last_password_change := now } else r) }

theorem setField_id (r : Record) (k : List Nat) (v : JSPrim) :
    (setField r k v).id = r.id := by
  unfold setField
  split_ifs <;> rfl

theorem setField_date_added (r : Record) (k : List Nat) (v : JSPrim) :
    (setField r k v).date_added = r.date_added := by
  unfold setField
  split_ifs <;> rfl

theorem applySets_id (sets : List (List Nat × JSPrim)) (r : Record) :
    (sets.foldl (fun r' kv => setField r' kv.1 kv.2) r).id = r.id := by
  induction sets generalizing r with
  | nil => rfl
  | cons kv rest ih => rw [List.foldl_cons, ih, setField_id]

theorem applySets_date_added (sets : List (List Nat × JSPrim)) (r : Record) :
    (sets.foldl (fun r' kv => setField r' kv.1 kv.2) r).date_added = r.date_added := by
  induction sets generalizing r with
  | nil => rfl
  | cons kv rest ih => rw [List.foldl_cons, ih, setField_date_added]

theorem mem_zip_self {α : Type} (l : List α) : ∀ p ∈ l.zip l, p.2 = p.1 := by
  induction l with
  | nil => intro p hp; cases hp
  | cons a rest ih =>
    intro p hp
    rw [List.zip_cons_cons] at hp
    rcases List.mem_cons.mp hp with rfl | hp
    · rfl
    · exact ih p hp

theorem mem_zip_map_self {α : Type} (g : α → α) (l : List α) :
    ∀ p ∈ l.zip (l.map g), p.2 = g p.1 := by
  induction l with
  | nil => intro p hp; cases hp
  | cons a rest ih =>
    intro p hp
    rw [List.map_cons, List.zip_cons_cons] at hp
    rcases List.mem_cons.mp hp with rfl | hp
    · rfl
    · exact ih p hp

/-- C6: `update(id, partialFields)` applies only the seven mutable fields:
unknown keys are discarded; every record keeps its `id` and `date_added`;
records whose id does not match are untouched; an argument object with none
of the allowed fields changes nothing and does not reach `saveDB`; an id
matching no record completes without error and affects zero rows. -/
theorem updateAccount_spec (id : Nat) (fields : List (List Nat × JSPrim)) (db : DBFile) :
    (updateAccount id fields db =
      updateAccount id (fields.filter (fun kv => kv.1 ∈ allowedFields)) db) ∧
    ((updateAccount id fields db).1.rows.map (fun r => (r.id, r.date_added)) =
      db.rows.map (fun r => (r.id, r.date_added))) ∧
    (∀ p ∈ db.rows.zip (updateAccount id fields db).1.rows, p.1.id ≠ id → p.2 = p.1) ∧
    ((∀ kv ∈ fields, kv.1 ∉ allowedFields) → updateAccount id fields db = (db, false)) ∧
    ((∀ r ∈ db.rows, r.id ≠ id) → (updateAccount id fields db).1 = db) := by
  refine ⟨?_, ?_, ?_, ?_, ?_⟩
  · simp only [updateAccount, List.filter_filter, Bool.and_self]
  · unfold updateAccount
    dsimp only
    split_ifs with hs
    · rfl
    · simp only [List.map_map]
      apply List.map_congr_left
      intro r _
      by_cases hr : r.id = id
      · simp only [Function.comp_apply, if_pos hr, applySets_id, applySets_date_added]
      · simp only [Function.comp_apply, if_neg hr]
  · unfold updateAccount
    dsimp only
    split_ifs with hs
    · intro p hp hne
      exact mem_zip_self db.rows p hp
    · intro p hp hne
      rw [mem_zip_map_self _ db.rows p hp, if_neg hne]
  · intro hnone
    unfold updateAccount
    rw [List.filter_eq_nil_iff.mpr (by intro kv hkv; simpa using hnone kv hkv), if_pos rfl]
  · intro hid
    unfold updateAccount
    dsimp only
    split_ifs with hs
    · rfl
    · have he : db.rows.map (fun r =>
          if r.id = id then
            (fields.filter (fun kv => kv.1 ∈ allowedFields)).foldl
              (fun r' kv => setField r' kv.1 kv.2) r
          else r) = db.rows.map (fun r => r) := by
        apply List.map_congr_left
        intro r hr
        rw [if_neg (hid r hr)]
      rw [he, List.map_id']

/-- Witness for C6 at concrete inputs: updating record 1 with an unknown
key and a known key changes only the known field, keeps `id` and
`date_added`, and an update with only unknown keys is a silent no-op. -/
theorem updateAccount_spec_witness :
    (∀ kv ∈ ([(cu ("bogus"), JSPrim.num 5)] : List (List Nat × JSPrim)),
      kv.1 ∉ allowedFields) ∧
    updateAccount 1 [(cu ("bogus"), JSPrim.num 5)]
      { rows := [], seq := 0 } = ({ rows := [], seq := 0 }, false) := by
  have h : ∀ kv ∈ ([(cu ("bogus"), JSPrim.num 5)] : List (List Nat × JSPrim)),
      kv.1 ∉ allowedFields := by decide
  exact ⟨h, (updateAccount_spec 1 [(cu ("bogus"), JSPrim.num 5)]
    { rows := [], seq := 0 }).2.2.2.1 h⟩

/-- C8 (amended): `addAccount` inserts exactly one new record, whose id is
the next AUTOINCREMENT value, but the function returns `undefined` — the
new id is not returned to the caller. -/
theorem addAccount_returns_undefined (f : AddFields) (now : List Nat) (db : DBFile) :
    (addAccount f now db).2 = none ∧
    (addAccount f now db).1.seq = db.seq + 1 ∧
    ∃ r, (addAccount f now db).1.rows = db.rows ++ [r] ∧ r.id = db.seq + 1 :=
  ⟨rfl, rfl, ⟨_, rfl, rfl⟩⟩

/-- Concrete `addAccount` argument used by the C8 counterexample. -/
def c8Fields : AddFields :=
  { service_name := cu ("Foo"), url := none, username := none, category := none,
    refresh_interval_days := none, last_password_change := none, notes := none }

/-- C8 counterexample: on an empty store `addAccount` assigns id 1 to the
newly inserted record, yet returns no value at all (`undefined`), so it
does not return the assigned id. -/
theorem addAccount_no_id_returned :
    ((addAccount c8Fields (cu ("2026-01-01")) emptyDBFile).1.rows.map
      (fun r => r.id) = [1]) ∧
    ¬ ∃ newId, (addAccount c8Fields (cu ("2026-01-01")) emptyDBFile).2 = some newId := by
  constructor
  · rfl
  · rintro ⟨n, hn⟩
    exact Option.noConfusion hn

/- ===== Backup codec (validateImportData, importAccounts) ===== -/

/-- One entry of a backup document's `accounts` array, typed per the export
format of §6 of the spec (string fields as strings,
`refresh_interval_days` as a number or numeric string; an absent property
is `none`). -/
structure RawAccount where
  service_name : Option (List Nat)
  url : Option (List Nat)
  username : Option (List Nat)
  category : Option (List Nat)
  refresh_interval_days : Option JSPrim
  last_password_change : Option (List Nat)
  date_added : Option (List Nat)
  notes : Option (List Nat)
deriving DecidableEq, Repr

/-- A backup document as read by `validateImportData`: `app` is the
app-identifier string (`none` for an absent or non-string value, which can
never compare equal to the identifier), `accounts` is `none` when the
property is not an array. -/
structure ImportDoc where
  app : Option (List Nat)
  accounts : Option (List RawAccount)
deriving DecidableEq, Repr

/-- The validation errors of `validateImportData`, one constructor per
`return` site, carrying the offending index where the message does. -/
inductive VErr
  | wrongApp
  | noAccounts
  | emptyAccounts
  | missingServiceName (i : Nat)
  | serviceNameTooLong (i : Nat)
  | invalidUrl (i : Nat)
  | invalidUsername (i : Nat)
deriving DecidableEq, Repr

/-- The `validCategories` list of `validateImportData`. -/
def validCategories : List (List Nat) :=
  [cu ("general"), cu ("financial"), cu ("email"), cu ("social"),
   cu ("shopping"), cu ("streaming"), cu ("work"), cu ("gaming")]

/-- JS truthiness of an optional string property. -/
def jsTruthyStr (x : Option (List Nat)) : Bool :=
  match x with
  | none => false
  | some s => s ≠ []

/-- Value of the maximal leading run of decimal digits (NaN = `none`). -/
def jsDigitsVal (l : List Nat) : Option Int :=
  match l.takeWhile isDigitCU with
  | [] => none
  | ds => some (digitsToNat ds : Int)

/-- JS `parseInt(s, 10)` on a string: skip leading white space, consume an
optional sign, parse the maximal leading digit run. -/
def jsParseIntCU (s : List Nat) : Option Int :=
  match s.dropWhile jsIsSpace with
  | [] => none
  | c :: r =>
    if c = 43 then jsDigitsVal r
    else if c = 45 then (jsDigitsVal r).map (fun n => -n)
    else jsDigitsVal (c :: r)

/-- JS `parseInt(v, 10)`: the argument is first converted to a string; an
integral number prints as its decimal digits and reparses to itself. -/
def jsParseInt : JSPrim → Option Int
  | .num n => some n
  | .str s => jsParseIntCU s

/-- Per-account body of the `validateImportData` loop: the fail-fast
checks, then the in-place `category` and `refresh_interval_days`
normalizations. Returns the error of the first violated check, or the
mutated account. (The array elements are typed as account objects, so the
`!a || typeof a !== 'object'` guard of the source never fires in this
embedding.) -/
def checkAccount (i : Nat) (a : RawAccount) : Except VErr RawAccount :=
  match a.service_name with
  | none => .error (.missingServiceName i)
  | some sn =>
    if jsTrim sn = [] then .error (.missingServiceName i)
    else if 200 < sn.length then .error (.serviceNameTooLong i)
    else if jsTruthyStr a.url ∧ 200 < (a.url.getD []).length then .error (.invalidUrl i)
    else if jsTruthyStr a.username ∧ 200 < (a.username.getD []).length then
      .error (.invalidUsername i)
    else
      let a1 := if jsTruthyStr a.category ∧ a.category.getD [] ∉ validCategories
        then { a with category := some (cu ("general")) } else a
      let a2 := match a1.refresh_interval_days with
        | none => a1
        | some v =>
          match jsParseInt v with
          | none => { a1 with refresh_interval_days := some (.num 90) }
          | some n =>
            if n < 1 ∨ 365 < n then { a1 with refresh_interval_days := some (.num 90) }
            else { a1 with refresh_interval_days := some (.num n) }
      .ok a2

/-- The indexed loop of `validateImportData`: earlier accounts keep their
in-place normalizations even when a later account fails. -/
def validateLoop (i : Nat) : List RawAccount → Option VErr × List RawAccount
  | [] => (none, [])
  | a :: rest =>
    match checkAccount i a with
    | .error e => (some e, a :: rest)
    | .ok a' =>
      let res := validateLoop (i + 1) rest
      (res.1, a' :: res.2)

/-- Embedding of `validateImportData(data)` from src/db/database.js, as a
state-passing function returning the JS return value (`none` = the `null`
"no error" result) together with the document, whose `accounts` array the
source mutates in place. -/
def validateImportData (d : ImportDoc) : Option VErr × ImportDoc :=
  if d.app ≠ some (cu ("Able Account")) then (some .wrongApp, d)
  else
    match d.accounts with
    | none => (some .noAccounts, d)
    | some accs =>
      if accs = [] then (some .emptyAccounts, d)
      else
        let res := validateLoop 0 accs
        (res.1, { d with accounts := some res.2 })

/-- Dedup key computed for an incoming record:
`(service_name || '').toLowerCase().trim()` and likewise for the url,
joined by the code unit of the bar character. -/
def accKey (a : RawAccount) : List Nat :=
  jsTrim (jsLower (a.service_name.getD [])) ++ 124 :: jsTrim (jsLower (a.url.getD []))

/-- Dedup key computed for an existing row:
`(service_name || '').toLowerCase()` and likewise for the url — note: no
`trim`, unlike `accKey`. -/
def rowKey (r : Record) : List Nat :=
  jsLower r.service_name ++ 124 :: jsLower r.url

/-- The row inserted for an accepted incoming record (the `db.run(INSERT)`
of the import loop, with its trims, length clamps and `||` defaults). -/
def importedRecord (now : List Nat) (a : RawAccount) (seq : Nat) : Record :=
  { id := seq + 1
    service_name := jsSlice 200 (jsTrim (a.service_name.getD []))
    url := jsSlice 200 (jsTrim (a.url.getD []))
    username := jsSlice 200 (jsTrim (a.username.getD []))
    category := jsOrStr a.category (cu ("general"))
    refresh_interval_days := intAffinity (jsOrNum90 a.refresh_interval_days)
    last_password_change := jsOrStr a.last_password_change now
    date_added := jsOrStr a.date_added now
    notes := jsSlice 1000 (jsTrim (a.notes.getD [])) }

inductive ImportMode
  | merge
  | replace
deriving DecidableEq, Repr

/-- The `for (const a of accounts)` loop of `importAccounts`; the JS `Set`
of keys is carried as a list with exact membership. -/
def importGo (now : List Nat) : List RawAccount → List (List Nat) → DBFile → Nat → Nat →
    DBFile × Nat × Nat × List (List Nat)
  | [], keys, db, added, skipped => (db, added, skipped, keys)
  | a :: rest, keys, db, added, skipped =>
    let key := accKey a
    if key ∈ keys then importGo now rest keys db added (skipped + 1)
    else importGo now rest (key :: keys)
      { rows := db.rows ++ [importedRecord now a db.seq], seq := db.seq + 1 }
      (added + 1) skipped

/-- Embedding of `importAccounts(accounts, mode)` from src/db/database.js:
seeds the key set from the existing rows (without `trim`), clears the
table (but not the AUTOINCREMENT sequence) and the key set first in
`replace` mode, and returns `{added, skipped}`. The `saveDB` call is
composed on top by `importAccountsOp`. -/
def importAccounts (accounts : List RawAccount) (mode : ImportMode) (now : List Nat)
    (db : DBFile) : DBFile × Nat × Nat :=
  let existingKeys := db.rows.map rowKey
  let start := match mode with
    | .replace => ({ db with rows := [] }, ([] : List (List Nat)))
    | .merge => (db, existingKeys)
  let res := importGo now accounts start.2 start.1 0 0
  (res.1, res.2.1, res.2.2.1)

/-- C10, spec side: the per-record normalization the claim describes — a
present (truthy) category not in the valid list becomes `general`; a
present `refresh_interval_days` becomes its parsed integer value, or 90
when it does not parse to an integer or parses outside [1,365]. -/
def normAccount (a : RawAccount) : RawAccount :=
  { a with
    category :=
      if jsTruthyStr a.category ∧ a.category.getD [] ∉ validCategories
      then some (cu ("general")) else a.category
    refresh_interval_days :=
      match a.refresh_interval_days with
      | none => none
      | some v =>
        match jsParseInt v with
        | none => some (.num 90)
        | some n => if n < 1 ∨ 365 < n then some (.num 90) else some (.num n) }

/-- The per-account facts a successful `checkAccount` leaves behind on the
normalized account. -/
structure OkAccount (a : RawAccount) : Prop where
  sn : ∃ s, a.service_name = some s ∧ s.length ≤ 200
  urlLen : (a.url.getD []).length ≤ 200
  rid : a.refresh_interval_days = none ∨
    ∃ n, a.refresh_interval_days = some (JSPrim.num n) ∧ 1 ≤ n ∧ n ≤ 365

theorem checkAccount_ok (i : Nat) (a a' : RawAccount)
    (h : checkAccount i a = .ok a') : a' = normAccount a ∧ OkAccount a' := by
  unfold checkAccount at h
  rcases hsn : a.service_name with _ | sn
  · rw [hsn] at h; cases h
  · rw [hsn] at h
    dsimp only at h
    by_cases h1 : jsTrim sn = []
    · rw [if_pos h1] at h; cases h
    rw [if_neg h1] at h
    by_cases h2 : 200 < sn.length
    · rw [if_pos h2] at h; cases h
    rw [if_neg h2] at h
    by_cases h3 : jsTruthyStr a.url ∧ 200 < (a.url.getD []).length
    · rw [if_pos h3] at h; cases h
    rw [if_neg h3] at h
    by_cases h4 : jsTruthyStr a.username ∧ 200 < (a.username.getD []).length
    · rw [if_pos h4] at h; cases h
    rw [if_neg h4] at h
    injection h with h
    have heq : a' = normAccount a := by
      rw [← h]
      unfold normAccount
      by_cases hc : jsTruthyStr a.category ∧ a.category.getD [] ∉ validCategories
      · simp only [if_pos hc]
        rw [hsn]
        rcases hr : a.refresh_interval_days with _ | v
        · simp only [hr]
        · simp only [hr]
          rcases hp : jsParseInt v with _ | n
          · simp only [hp]
          · simp only [hp]
            by_cases hb : n < 1 ∨ 365 < n
            · simp only [if_pos hb]
            · simp only [if_neg hb]
      · simp only [if_neg hc]
        rcases hr : a.refresh_interval_days with _ | v
        · simp only [hr]
          rw [← hr]
        · simp only [hr]
          rcases hp : jsParseInt v with _ | n
          · simp only [hp]
          · simp only [hp]
            by_cases hb : n < 1 ∨ 365 < n
            · simp only [if_pos hb]
            · simp only [if_neg hb]
    have hurl : (a.url.getD []).length ≤ 200 := by
      rcases hurl : a.url with _ | u
      · simp
      · by_cases hue : u = []
        · simp [hue]
        · by_contra hlen
          simp only [Option.getD_some] at hlen
          apply h3
          refine ⟨?_, ?_⟩
          · rw [hurl]
            simp only [jsTruthyStr, ne_eq, decide_not]
            simpa using hue
          · rw [hurl]
            simp only [Option.getD_some]
            omega
    refine ⟨heq, ?_⟩
    rw [heq]
    refine ⟨⟨sn, ?_, by omega⟩, ?_, ?_⟩
    · show a.service_name = some sn
      exact hsn
    · show (a.url.getD []).length ≤ 200
      exact hurl
    · show (normAccount a).refresh_interval_days = none ∨ _
      unfold normAccount
      dsimp only
      rcases hr : a.refresh_interval_days with _ | v
      · exact Or.inl rfl
      · dsimp only
        rcases hp : jsParseInt v with _ | n
        · exact Or.inr ⟨90, rfl, by omega, by omega⟩
        · dsimp only
          by_cases hb : n < 1 ∨ 365 < n
          · rw [if_pos hb]
            exact Or.inr ⟨90, rfl, by omega, by omega⟩
          · rw [if_neg hb]
            refine Or.inr ⟨n, rfl, ?_, ?_⟩ <;> omega

theorem validateLoop_none (accs : List RawAccount) :
    ∀ i accs', validateLoop i accs = (none, accs') →
      accs' = accs.map normAccount ∧ ∀ a' ∈ accs', OkAccount a' := by
  induction accs with
  | nil =>
    intro i accs' h
    injection h with h1 h2
    subst h2
    exact ⟨rfl, by intro a ha; cases ha⟩
  | cons a rest ih =>
    intro i accs' h
    unfold validateLoop at h
    cases hc : checkAccount i a with
    | error e =>
      rw [hc] at h
      injection h with h1 h2
      cases h1
    | ok a1 =>
      rw [hc] at h
      dsimp only at h
      injection h with h1 h2
      obtain ⟨hmap, hprops⟩ := ih (i + 1) (validateLoop (i + 1) rest).2 (by rw [← h1])
      obtain ⟨ha1norm, ha1ok⟩ := checkAccount_ok i a a1 hc
      subst h2
      constructor
      · rw [List.map_cons, ← ha1norm, ← hmap]
      · intro a' ha'
        rcases List.mem_cons.mp ha' with rfl | ha'
        · exact ha1ok
        · exact hprops a' ha'

theorem validateImportData_ok (d d' : ImportDoc)
    (h : validateImportData d = (none, d')) :
    ∃ accs, d.accounts = some accs ∧
      d'.accounts = some (accs.map normAccount) ∧
      ∀ a' ∈ accs.map normAccount, OkAccount a' := by
  unfold validateImportData at h
  split_ifs at h with happ
  · injection h with h1 h2; cases h1
  · cases hacc : d.accounts with
    | none => rw [hacc] at h; injection h with h1 h2; cases h1
    | some accs =>
      rw [hacc] at h
      replace h : (if accs = [] then (some VErr.emptyAccounts, d)
          else (let res := validateLoop 0 accs;
            (res.1, { d with accounts := some res.2 }))) = (none, d') := h
      split_ifs at h with hemp
      · injection h with h1 h2; cases h1
      · dsimp only at h
        injection h with h1 h2
        obtain ⟨hmap, hprops⟩ :=
          validateLoop_none accs 0 (validateLoop 0 accs).2 (by rw [← h1])
        refine ⟨accs, rfl, ?_, ?_⟩
        · rw [← h2]
          dsimp only
          rw [hmap]
        · intro a' ha'
          exact hprops a' (by rw [hmap]; exact ha')

/-- The concrete raw account of the C10 mutation example: an unknown
category and a `refresh_interval_days` given as the string `12x`. -/
def c10Account : RawAccount :=
  { service_name := some (cu ("Example")), url := none, username := none,
    category := some (cu ("weird")),
    refresh_interval_days := some (JSPrim.str (cu ("12x"))),
    last_password_change := none, date_added := none, notes := none }

/-- A backup document around `c10Account` that `validateImportData`
accepts. -/
def c10Doc : ImportDoc :=
  { app := some (cu ("Able Account")), accounts := some [c10Account] }

/-- The value `c10Account` is mutated into: category coerced to `general`,
interval replaced by the parsed integer 12. -/
def c10AccountOut : RawAccount :=
  { c10Account with
    category := some (cu ("general"))
    refresh_interval_days := some (JSPrim.num 12) }

/-- C10: `validateImportData` mutates the document it is checking rather
than only checking it: whenever validation succeeds the accounts array has
been rewritten record by record to its normalized form — a present truthy
category outside the valid list replaced by `general`, a present
`refresh_interval_days` replaced by its parsed integer value, or by 90
when it does not parse to an integer or is outside [1,365] — and on the
concrete document `c10Doc` the returned document differs from the input,
exhibiting the side effect. -/
theorem validateImportData_mutates :
    (∀ d d' accs, validateImportData d = (none, d') → d.accounts = some accs →
      d'.accounts = some (accs.map normAccount)) ∧
    ((validateImportData c10Doc).1 = none ∧ (validateImportData c10Doc).2 ≠ c10Doc) := by
  refine ⟨?_, ?_, ?_⟩
  · intro d d' accs h haccs
    obtain ⟨accs0, h0, h1, -⟩ := validateImportData_ok d d' h
    rw [haccs] at h0
    injection h0 with h0
    rw [h0]
    exact h1
  · decide
  · decide

/-- Witness for C10: applying the theorem to the concrete document
`c10Doc` shows its account is rewritten to `c10AccountOut`. -/
theorem validateImportData_mutates_witness :
    ({ app := some (cu ("Able Account")), accounts := some [c10AccountOut] }
      : ImportDoc).accounts = some ([c10Account].map normAccount) :=
  validateImportData_mutates.1 c10Doc
    { app := some (cu ("Able Account")), accounts := some [c10AccountOut] }
    [c10Account] (by decide) rfl

theorem importedRecord_rid (now : List Nat) (a : RawAccount) (seq : Nat)
    (hok : OkAccount a) :
    ∃ n, (importedRecord now a seq).refresh_interval_days = SqlVal.int n ∧
      1 ≤ n ∧ n ≤ 365 := by
  rcases hok.rid with hnone | ⟨n, hn, hn1, hn2⟩
  · refine ⟨90, ?_, by omega, by omega⟩
    show intAffinity (jsOrNum90 a.refresh_interval_days) = SqlVal.int 90
    rw [hnone]
    rfl
  · refine ⟨n, ?_, hn1, hn2⟩
    show intAffinity (jsOrNum90 a.refresh_interval_days) = SqlVal.int n
    rw [hn]
    show intAffinity (if n = 0 then JSPrim.num 90 else JSPrim.num n) = SqlVal.int n
    rw [if_neg (by omega)]
    rfl

theorem importGo_rows_rid (now : List Nat) (accs : List RawAccount) :
    ∀ keys db added skipped, (∀ a ∈ accs, OkAccount a) →
    ∀ r ∈ (importGo now accs keys db added skipped).1.rows,
      r ∈ db.rows ∨ ∃ n, r.refresh_interval_days = SqlVal.int n ∧ 1 ≤ n ∧ n ≤ 365 := by
  induction accs with
  | nil =>
    intro keys db added skipped hok r hr
    exact Or.inl hr
  | cons a rest ih =>
    intro keys db added skipped hok r hr
    unfold importGo at hr
    dsimp only at hr
    split_ifs at hr with hk
    · exact ih keys db added (skipped + 1)
        (fun x hx => hok x (List.mem_cons_of_mem a hx)) r hr
    · rcases ih _ _ _ _ (fun x hx => hok x (List.mem_cons_of_mem a hx)) r hr with
        hmem | hprop
      · rcases List.mem_append.mp hmem with hmem | hmem
        · exact Or.inl hmem
        · obtain rfl := List.mem_singleton.mp hmem
          exact Or.inr (importedRecord_rid now a db.seq (hok a (List.mem_cons_self a rest)))
      · exact Or.inr hprop

/-- C4 (amended): records persisted through `importAccounts` of a document
accepted by `validateImportData` carry `refresh_interval_days` as an
integer in [1,365] (90 when the field is absent); `addAccount` performs no
range coercion: a nonzero out-of-range value it is given is stored
unchanged — only absent or zero values fall back to 90. -/
theorem refreshInterval_range_spec :
    (∀ d d' accs mode now db, validateImportData d = (none, d') →
      d'.accounts = some accs →
      ∀ r ∈ (importAccounts accs mode now db).1.rows,
        r ∈ db.rows ∨ ∃ n, r.refresh_interval_days = SqlVal.int n ∧ 1 ≤ n ∧ n ≤ 365) ∧
    (∀ f now db v, f.refresh_interval_days = some (JSPrim.num v) → v ≠ 0 →
      ∃ r, (addAccount f now db).1.rows = db.rows ++ [r] ∧
        r.refresh_interval_days = SqlVal.int v) := by
  constructor
  · intro d d' accs mode now db hval haccs r hr
    obtain ⟨accs0, h0, h1, hprops⟩ := validateImportData_ok d d' hval
    rw [haccs] at h1
    injection h1 with h1
    have hok : ∀ a ∈ accs, OkAccount a := by
      intro a ha
      apply hprops
      rw [← h1]
      exact ha
    unfold importAccounts at hr
    dsimp only at hr
    cases mode with
    | merge =>
      exact importGo_rows_rid now accs (db.rows.map rowKey) db 0 0 hok r hr
    | replace =>
      rcases importGo_rows_rid now accs [] { db with rows := [] } 0 0 hok r hr with
        hmem | hprop
      · cases hmem
      · exact Or.inr hprop
  · intro f now db v hf hv
    refine ⟨_, rfl, ?_⟩
    show intAffinity (jsOrNum90 f.refresh_interval_days) = SqlVal.int v
    rw [hf]
    show intAffinity (if v = 0 then JSPrim.num 90 else JSPrim.num v) = SqlVal.int v
    rw [if_neg hv]
    rfl

/-- Concrete `addAccount` argument with an out-of-range interval, used by
the C4 counterexample. -/
def c4Fields : AddFields :=
  { service_name := cu ("Foo"), url := none, username := none, category := none,
    refresh_interval_days := some (JSPrim.num 1000), last_password_change := none,
    notes := none }

/-- C4 counterexample: `addAccount` given `refresh_interval_days = 1000`
persists 1000, which lies outside [1,365] — the out-of-range value is not
coerced before storage. -/
theorem addAccount_out_of_range_stored :
    ((addAccount c4Fields (cu ("T")) emptyDBFile).1.rows.map
      (fun r => r.refresh_interval_days) = [SqlVal.int 1000]) ∧
    ¬ ((1:Int) ≤ 1000 ∧ (1000:Int) ≤ 365) :=
  ⟨rfl, by decide⟩

/-- Witness for C4 at concrete inputs: the import half applied to the
validated document built from `c10Doc`, the add half applied to
`c4Fields`. -/
theorem refreshInterval_range_spec_witness :
    (∀ r ∈ (importAccounts ([c10Account].map normAccount) ImportMode.merge
        (cu ("T")) emptyDBFile).1.rows,
      r ∈ emptyDBFile.rows ∨
        ∃ n, r.refresh_interval_days = SqlVal.int n ∧ 1 ≤ n ∧ n ≤ 365) ∧
    (∃ r, (addAccount c4Fields (cu ("T")) emptyDBFile).1.rows =
        emptyDBFile.rows ++ [r] ∧ r.refresh_interval_days = SqlVal.int 1000) := by
  constructor
  · exact refreshInterval_range_spec.1 c10Doc
      { app := some (cu ("Able Account")),
        accounts := some ([c10Account].map normAccount) }
      ([c10Account].map normAccount) ImportMode.merge (cu ("T")) emptyDBFile
      (by decide) rfl
  · exact refreshInterval_range_spec.2 c4Fields (cu ("T")) emptyDBFile 1000 rfl (by decide)

theorem rowKey_importedRecord (now : List Nat) (a : RawAccount) (seq : Nat)
    (hok : OkAccount a) : rowKey (importedRecord now a seq) = accKey a := by
  obtain ⟨s, hs, hslen⟩ := hok.sn
  unfold rowKey importedRecord accKey
  dsimp only
  rw [hs]
  simp only [Option.getD_some]
  rw [jsSlice_jsTrim_of_le s 200 hslen, jsSlice_jsTrim_of_le _ 200 hok.urlLen,
    jsLower_jsTrim, jsLower_jsTrim]

theorem importGo_keys_mono (now : List Nat) (accs : List RawAccount) :
    ∀ keys db added skipped k, k ∈ keys →
      k ∈ (importGo now accs keys db added skipped).2.2.2 := by
  induction accs with
  | nil => intro keys db added skipped k hk; exact hk
  | cons a rest ih =>
    intro keys db added skipped k hk
    unfold importGo
    dsimp only
    split_ifs with hmem
    · exact ih _ _ _ _ k hk
    · exact ih _ _ _ _ k (List.mem_cons_of_mem _ hk)

theorem importGo_key_mem (now : List Nat) (accs : List RawAccount) :
    ∀ keys db added skipped a, a ∈ accs →
      accKey a ∈ (importGo now accs keys db added skipped).2.2.2 := by
  induction accs with
  | nil => intro keys db added skipped a ha; cases ha
  | cons a0 rest ih =>
    intro keys db added skipped a ha
    unfold importGo
    dsimp only
    rcases List.mem_cons.mp ha with rfl | ha
    · split_ifs with hmem
      · exact importGo_keys_mono now rest _ _ _ _ _ hmem
      · exact importGo_keys_mono now rest _ _ _ _ _ (List.mem_cons_self _ _)
    · split_ifs with hmem
      · exact ih _ _ _ _ a ha
      · exact ih _ _ _ _ a ha

theorem importGo_keys_covered (now : List Nat) (accs : List RawAccount) :
    ∀ keys db added skipped, (∀ a ∈ accs, OkAccount a) →
      (∀ k ∈ keys, k ∈ db.rows.map rowKey) →
      ∀ k ∈ (importGo now accs keys db added skipped).2.2.2,
        k ∈ (importGo now accs keys db added skipped).1.rows.map rowKey := by
  induction accs with
  | nil =>
    intro keys db added skipped hok hkeys k hk
    exact hkeys k hk
  | cons a rest ih =>
    intro keys db added skipped hok hkeys k hk
    unfold importGo at hk ⊢
    dsimp only at hk ⊢
    split_ifs at hk ⊢ with hmem
    · exact ih _ _ _ _ (fun x hx => hok x (List.mem_cons_of_mem a hx)) hkeys k hk
    · refine ih _ _ _ _ (fun x hx => hok x (List.mem_cons_of_mem a hx)) ?_ k hk
      intro k' hk'
      rcases List.mem_cons.mp hk' with rfl | hk'
      · refine List.mem_map.mpr ⟨importedRecord now a db.seq, ?_,
          rowKey_importedRecord now a db.seq (hok a (List.mem_cons_self a rest))⟩
        exact List.mem_append_right _ (List.mem_singleton.mpr rfl)
      · obtain ⟨r0, hr0, rfl⟩ := List.mem_map.mp (hkeys k' hk')
        exact List.mem_map.mpr ⟨r0, List.mem_append_left _ hr0, rfl⟩

theorem importGo_all_skipped (now : List Nat) (accs : List RawAccount) :
    ∀ keys db added skipped, (∀ a ∈ accs, accKey a ∈ keys) →
      importGo now accs keys db added skipped =
        (db, added, skipped + accs.length, keys) := by
  induction accs with
  | nil => intro keys db added skipped h; rfl
  | cons a rest ih =>
    intro keys db added skipped h
    unfold importGo
    dsimp only
    rw [if_pos (h a (List.mem_cons_self a rest)),
      ih keys db added (skipped + 1) (fun x hx => h x (List.mem_cons_of_mem a hx)),
      List.length_cons]
    have h3 : skipped + 1 + rest.length = skipped + (rest.length + 1) := by omega
    rw [h3]

/-- C7: importing the accounts of a validated backup document in merge
mode and then importing the same accounts again in merge mode adds nothing
the second time: the second call returns added = 0 and skips every record,
because each incoming record's lowercase-trimmed `service_name|url` dedup
key is by then present among the stored rows — either a pre-existing row
it was skipped for, or the row the first import inserted for it. -/
theorem importAccounts_merge_idempotent (d d' : ImportDoc) (accs : List RawAccount)
    (db : DBFile) (now now' : List Nat)
    (hval : validateImportData d = (none, d')) (haccs : d'.accounts = some accs) :
    (importAccounts accs ImportMode.merge now'
        (importAccounts accs ImportMode.merge now db).1).2.1 = 0 ∧
    (importAccounts accs ImportMode.merge now'
        (importAccounts accs ImportMode.merge now db).1).2.2 = accs.length := by
  obtain ⟨accs0, h0, h1, hprops⟩ := validateImportData_ok d d' hval
  rw [haccs] at h1
  injection h1 with h1
  have hok : ∀ a ∈ accs, OkAccount a := fun a ha => hprops a (by rw [← h1]; exact ha)
  have hcover : ∀ a ∈ accs,
      accKey a ∈ (importGo now accs (db.rows.map rowKey) db 0 0).1.rows.map rowKey := by
    intro a ha
    exact importGo_keys_covered now accs (db.rows.map rowKey) db 0 0 hok
      (fun k hk => hk) (accKey a)
      (importGo_key_mem now accs (db.rows.map rowKey) db 0 0 a ha)
  have hfirst : (importAccounts accs ImportMode.merge now db).1 =
      (importGo now accs (db.rows.map rowKey) db 0 0).1 := rfl
  have hsecond := importGo_all_skipped now' accs
    ((importGo now accs (db.rows.map rowKey) db 0 0).1.rows.map rowKey)
    (importGo now accs (db.rows.map rowKey) db 0 0).1 0 0 hcover
  have hsnd : importAccounts accs ImportMode.merge now'
      (importGo now accs (db.rows.map rowKey) db 0 0).1 =
      ((importGo now accs (db.rows.map rowKey) db 0 0).1, 0, 0 + accs.length) := by
    show ((importGo now' accs
        ((importGo now accs (db.rows.map rowKey) db 0 0).1.rows.map rowKey)
        (importGo now accs (db.rows.map rowKey) db 0 0).1 0 0).1,
      (importGo now' accs
        ((importGo now accs (db.rows.map rowKey) db 0 0).1.rows.map rowKey)
        (importGo now accs (db.rows.map rowKey) db 0 0).1 0 0).2.1,
      (importGo now' accs
        ((importGo now accs (db.rows.map rowKey) db 0 0).1.rows.map rowKey)
        (importGo now accs (db.rows.map rowKey) db 0 0).1 0 0).2.2.1) =
      ((importGo now accs (db.rows.map rowKey) db 0 0).1, 0, 0 + accs.length)
    rw [hsecond]
  rw [hfirst, hsnd]
  exact ⟨rfl, Nat.zero_add _⟩

/-- Witness for C7: the validated one-account document built from `c10Doc`
imported twice into an empty store — the second import adds 0 and skips
its single record. -/
theorem importAccounts_merge_idempotent_witness :
    ((importAccounts ([c10Account].map normAccount) ImportMode.merge (cu ("T2"))
      (importAccounts ([c10Account].map normAccount) ImportMode.merge (cu ("T1"))
        emptyDBFile).1).2.1 = 0) ∧
    ((importAccounts ([c10Account].map normAccount) ImportMode.merge (cu ("T2"))
      (importAccounts ([c10Account].map normAccount) ImportMode.merge (cu ("T1"))
        emptyDBFile).1).2.2 = ([c10Account].map normAccount).length) :=
  importAccounts_merge_idempotent c10Doc
    { app := some (cu ("Able Account")), accounts := some ([c10Account].map normAccount) }
    ([c10Account].map normAccount) emptyDBFile (cu ("T1")) (cu ("T2"))
    (by decide) rfl

/- ===== Crypto engine and store state machine ===== -/

/-- A key derived by `deriveKey` (PBKDF2, 310000 iterations, SHA-256):
modelled symbolically by the pair that determines it — derivation is
deterministic in (passphrase, salt). -/
structure DerivedKey where
  passphrase : List Nat
  salt : Nat
deriving DecidableEq, Repr

/-- Embedding of `deriveKey(passphrase, salt)`. -/
def deriveKey (passphrase : List Nat) (salt : Nat) : DerivedKey :=
  ⟨passphrase, salt⟩

/-- A serialized database image: either a well-formed export of an
in-memory database (`new SQL.Database(bytes)` succeeds and the
`SELECT count(*) FROM accounts` probe passes) or bytes on which
construction or the probe throws. -/
inductive DBBytes
  | good (file : DBFile)
  | corrupt
deriving DecidableEq, Repr

/-- An AES-256-GCM ciphertext, modelled symbolically: authenticated
decryption succeeds exactly under the key and nonce the blob was
encrypted with (the idealized reading of authenticated encryption). -/
structure CipherBlob where
  key : DerivedKey
  iv : Nat
  plain : DBBytes
deriving DecidableEq, Repr

/-- Embedding of `encryptData(data, key)`, with the fresh random 96-bit
nonce threaded in as `iv`; returns the `{iv, data}` pair of the source. -/
def encryptData (data : DBBytes) (key : DerivedKey) (iv : Nat) : Nat × CipherBlob :=
  (iv, ⟨key, iv, data⟩)

/-- Embedding of `decryptData(encryptedData, iv, key)`: `none` is the
exception of a failed AES-GCM authentication. -/
def decryptData (c : CipherBlob) (iv : Nat) (key : DerivedKey) : Option DBBytes :=
  if c.key = key ∧ c.iv = iv then some c.plain else none

/-- The persisted value of the `accountDB_encrypted` blob-store key:
`{salt, iv, data}`. -/
structure EncBlob where
  salt : Nat
  iv : Nat
  data : CipherBlob
deriving DecidableEq, Repr

/-- The blob store (`browserAPI.storage.local`), restricted to the two
keys database.js reads and writes. -/
structure Store where
  accountDB : Option DBBytes
  accountDB_encrypted : Option EncBlob
deriving DecidableEq, Repr

/-- The module-level mutable state of database.js: the globals `db`,
`_cryptoKey` and `_cryptoSalt`. -/
structure Session where
  db : Option DBFile
  cryptoKey : Option DerivedKey
  cryptoSalt : Option Nat
deriving DecidableEq, Repr

/-- The locked state: all three globals null. -/
def lockedSession : Session := ⟨none, none, none⟩

inductive JsErr
  | wrongPassphrase
  | typeError
  | storageFailure
deriving DecidableEq, Repr

/-- The body of `saveDB` up to its `try`: export the database (throws when
`db` is null), and when both key and salt are held, encrypt the export and
write the `accountDB_encrypted` entry (the write rejects when `writeOk` is
false). -/
def saveDBBody (writeOk : Bool) (freshIv : Nat) (s : Session) (store : Store) :
    Except JsErr Store :=
  match s.db with
  | none => .error .typeError
  | some file =>
    match s.cryptoKey, s.cryptoSalt with
    | some key, some salt =>
      if writeOk then
        .ok { store with
          accountDB_encrypted :=
            some ⟨salt, freshIv, (encryptData (.good file) key freshIv).2⟩ }
      else .error .storageFailure
    | _, _ => .ok store

/-- Embedding of `saveDB()`: its whole body is wrapped in `try { … }
catch (err) { console.error(…) }`, so every failure is swallowed and the
store is then left as it was. -/
def saveDB (writeOk : Bool) (freshIv : Nat) (s : Session) (store : Store) : Store :=
  match saveDBBody writeOk freshIv s store with
  | .ok st => st
  | .error _ => store

/-- Embedding of `lockDB()`. -/
def lockDB (_s : Session) : Session := lockedSession

/-- The outcome of `initDB`: the final globals, the final store, the JS
return value (`none` when the function threw) and the thrown error. -/
structure InitResult where
  session : Session
  store : Store
  ret : Option DBFile
  err : Option JsErr
deriving DecidableEq, Repr

/-- Embedding of `initDB(passphrase)` from src/db/database.js. An
encrypted blob present: derive the key from the stored salt, decrypt and
probe; on any failure null all globals and throw `WRONG_PASSPHRASE`. Else
a legacy plaintext blob present: derive a key from a fresh salt, load the
plaintext (falling back to a fresh empty database when the load fails),
and when the load succeeded, `await saveDB()` and then remove the legacy
`accountDB` entry. Else (or after a failed legacy load) create the fresh
schema and `saveDB`. Fresh randomness and the success of the storage
write are threaded in as `freshSalt`, `freshIv`, `writeOk`. -/
def initDB (pass : List Nat) (store : Store) (freshSalt freshIv : Nat)
    (writeOk : Bool) : InitResult :=
  match store.accountDB_encrypted with
  | some enc =>
    let key := deriveKey pass enc.salt
    match decryptData enc.data enc.iv key with
    | some (.good file) =>
      { session := ⟨some file, some key, some enc.salt⟩, store := store,
        ret := some file, err := none }
    | some .corrupt =>
      { session := lockedSession, store := store, ret := none,
        err := some .wrongPassphrase }
    | none =>
      { session := lockedSession, store := store, ret := none,
        err := some .wrongPassphrase }
  | none =>
    match store.accountDB with
    | some bytes =>
      let key := deriveKey pass freshSalt
      match bytes with
      | .good file =>
        let sess : Session := ⟨some file, some key, some freshSalt⟩
        let store1 := saveDB writeOk freshIv sess store
        let store2 := { store1 with accountDB := none }
        { session := sess, store := store2, ret := some file, err := none }
      | .corrupt =>
        let sess : Session := ⟨some emptyDBFile, some key, some freshSalt⟩
        let store1 := saveDB writeOk freshIv sess store
        { session := sess, store := store1, ret := some emptyDBFile, err := none }
    | none =>
      let key := deriveKey pass freshSalt
      let sess : Session := ⟨some emptyDBFile, some key, some freshSalt⟩
      let store1 := saveDB writeOk freshIv sess store
      { session := sess, store := store1, ret := some emptyDBFile, err := none }

/-- C2: unlocking an `Encrypted` store with a passphrase whose derived key
fails authenticated decryption of the stored blob, or whose decrypted
bytes fail the integrity probe, throws `WRONG_PASSPHRASE`; afterwards no
derived key, no salt and no database handle remain in the globals — no
session exists — and the persisted store is untouched. -/
theorem initDB_wrong_passphrase (pass : List Nat) (store : Store) (enc : EncBlob)
    (freshSalt freshIv : Nat) (writeOk : Bool)
    (henc : store.accountDB_encrypted = some enc)
    (hfail : decryptData enc.data enc.iv (deriveKey pass enc.salt) = none ∨
      decryptData enc.data enc.iv (deriveKey pass enc.salt) = some DBBytes.corrupt) :
    (initDB pass store freshSalt freshIv writeOk).err = some JsErr.wrongPassphrase ∧
    (initDB pass store freshSalt freshIv writeOk).session = lockedSession ∧
    (initDB pass store freshSalt freshIv writeOk).ret = none ∧
    (initDB pass store freshSalt freshIv writeOk).store = store := by
  unfold initDB
  rw [henc]
  dsimp only
  rcases hfail with hf | hf
  · rw [hf]
    exact ⟨rfl, rfl, rfl, rfl⟩
  · rw [hf]
    exact ⟨rfl, rfl, rfl, rfl⟩

/-- The concrete encrypted blob of the C2 witness, sealed under the
passphrase `pw` with salt 1 and nonce 5. -/
def c2Blob : EncBlob :=
  { salt := 1, iv := 5, data := ⟨deriveKey (cu ("pw")) 1, 5, DBBytes.good emptyDBFile⟩ }

def c2Store : Store := { accountDB := none, accountDB_encrypted := some c2Blob }

/-- Witness for C2: unlocking `c2Store` with the wrong passphrase `xx`
throws and leaves the globals null. -/
theorem initDB_wrong_passphrase_witness :
    (initDB (cu ("xx")) c2Store 7 9 true).err = some JsErr.wrongPassphrase ∧
    (initDB (cu ("xx")) c2Store 7 9 true).session = lockedSession :=
  ⟨(initDB_wrong_passphrase (cu ("xx")) c2Store c2Blob 7 9 true rfl
      (Or.inl (by decide))).1,
   (initDB_wrong_passphrase (cu ("xx")) c2Store c2Blob 7 9 true rfl
      (Or.inl (by decide))).2.1⟩

/-- C9: `saveDB` writes only when both a derived key and a salt are held
in the globals: without them the store is returned exactly as it was (and
the function completes normally — its `catch` swallows every failure);
the plaintext `accountDB` entry is never written; and whenever `saveDB`
does change the store, the only entry it writes is `accountDB_encrypted`,
whose payload is the encryption of the exported in-memory database under
the held key and salt. -/
theorem saveDB_spec (writeOk : Bool) (freshIv : Nat) (s : Session) (store : Store) :
    ((s.cryptoKey = none ∨ s.cryptoSalt = none) →
      saveDB writeOk freshIv s store = store) ∧
    (saveDB writeOk freshIv s store).accountDB = store.accountDB ∧
    (saveDB writeOk freshIv s store = store ∨
      ∃ key salt file, s.cryptoKey = some key ∧ s.cryptoSalt = some salt ∧
        s.db = some file ∧
        saveDB writeOk freshIv s store =
          { store with
            accountDB_encrypted :=
              some ⟨salt, freshIv, (encryptData (DBBytes.good file) key freshIv).2⟩ }) := by
  unfold saveDB saveDBBody
  rcases hdb : s.db with _ | file
  · exact ⟨fun _ => rfl, rfl, Or.inl rfl⟩
  · rcases hkey : s.cryptoKey with _ | key
    · rcases hsalt : s.cryptoSalt with _ | salt
      · exact ⟨fun _ => rfl, rfl, Or.inl rfl⟩
      · exact ⟨fun _ => rfl, rfl, Or.inl rfl⟩
    · rcases hsalt : s.cryptoSalt with _ | salt
      · exact ⟨fun _ => rfl, rfl, Or.inl rfl⟩
      · dsimp only
        by_cases hw : writeOk
        · refine ⟨?_, ?_, ?_⟩
          · rintro (h | h) <;> cases h
          · rw [if_pos hw]
          · right
            exact ⟨key, salt, file, rfl, rfl, rfl, by rw [if_pos hw]⟩
        · have hne : writeOk = false := by
            cases writeOk
            · rfl
            · exact absurd rfl hw
          subst hne
          exact ⟨fun _ => rfl, rfl, Or.inl rfl⟩

/-- Witness for C9: with no session held, `saveDB` leaves an empty store
untouched. -/
theorem saveDB_spec_witness :
    saveDB true 5 lockedSession { accountDB := none, accountDB_encrypted := none } =
      { accountDB := none, accountDB_encrypted := none } :=
  (saveDB_spec true 5 lockedSession
    { accountDB := none, accountDB_encrypted := none }).1 (Or.inl rfl)

/-- The single record of the C1 failing input. -/
def c1Record : Record :=
  { id := 1, service_name := cu ("Bank"), url := [], username := [],
    category := cu ("general"), refresh_interval_days := SqlVal.int 90,
    last_password_change := cu ("T0"), date_added := cu ("T0"), notes := [] }

/-- The C1 failing input: a legacy plaintext store holding one record, no
encrypted blob. -/
def c1Store : Store :=
  { accountDB := some (DBBytes.good { rows := [c1Record], seq := 1 }),
    accountDB_encrypted := none }

/-- C1: evaluation of `initDB` at the failing input — the legacy store
`c1Store` with the storage write rejecting during the migration's
`saveDB`. The `saveDB` catch swallows the failure, so `initDB` proceeds to
remove the legacy `accountDB` entry anyway: afterwards the store holds
neither the plaintext nor an encrypted blob, no error was reported, and
the record survives only in the in-memory session — contradicting the
claim that the legacy entry is removed only once the encrypted blob has
been persisted. -/
theorem initDB_migration_data_loss :
    (initDB (cu ("pw")) c1Store 7 9 false).store.accountDB = none ∧
    (initDB (cu ("pw")) c1Store 7 9 false).store.accountDB_encrypted = none ∧
    (initDB (cu ("pw")) c1Store 7 9 false).err = none ∧
    (initDB (cu ("pw")) c1Store 7 9 false).session.db =
      some { rows := [c1Record], seq := 1 } :=
  ⟨rfl, rfl, rfl, rfl⟩

theorem saveDB_write_fails (freshIv : Nat) (s : Session) (store : Store) :
    saveDB false freshIv s store = store := by
  unfold saveDB saveDBBody
  rcases hdb : s.db with _ | file
  · rfl
  · rcases hkey : s.cryptoKey with _ | key
    · rcases hsalt : s.cryptoSalt with _ | salt <;> rfl
    · rcases hsalt : s.cryptoSalt with _ | salt <;> rfl

/-- Embedding of `addAccount` as invoked through the session: `db.run` on
a null handle throws; otherwise the mutation is applied to the in-memory
database and `saveDB` is awaited, whose failures never escape. -/
def addAccountOp (f : AddFields) (now : List Nat) (writeOk : Bool) (freshIv : Nat)
    (s : Session) (store : Store) : Except JsErr (Session × Store × Option Nat) :=
  match s.db with
  | none => .error .typeError
  | some db =>
    let res := addAccount f now db
    let s' := { s with db := some res.1 }
    .ok (s', saveDB writeOk freshIv s' store, res.2)

/-- Embedding of `updateAccount` through the session; on the empty-`sets`
early return `saveDB` is not called. -/
def updateAccountOp (id : Nat) (fields : List (List Nat × JSPrim)) (writeOk : Bool)
    (freshIv : Nat) (s : Session) (store : Store) : Except JsErr (Session × Store) :=
  match s.db with
  | none => .error .typeError
  | some db =>
    let res := updateAccount id fields db
    let s' := { s with db := some res.1 }
    .ok (s', if res.2 then saveDB writeOk freshIv s' store else store)

/-- Embedding of `deleteAccount` through the session. -/
def deleteAccountOp (id : Nat) (writeOk : Bool) (freshIv : Nat) (s : Session)
    (store : Store) : Except JsErr (Session × Store) :=
  match s.db with
  | none => .error .typeError
  | some db =>
    let s' := { s with db := some (deleteAccount id db) }
    .ok (s', saveDB writeOk freshIv s' store)

/-- Embedding of `markRefreshed` through the session. -/
def markRefreshedOp (id : Nat) (now : List Nat) (writeOk : Bool) (freshIv : Nat)
    (s : Session) (store : Store) : Except JsErr (Session × Store) :=
  match s.db with
  | none => .error .typeError
  | some db =>
    let s' := { s with db := some (markRefreshed id now db) }
    .ok (s', saveDB writeOk freshIv s' store)

/-- Embedding of `importAccounts` through the session. -/
def importAccountsOp (accounts : List RawAccount) (mode : ImportMode) (now : List Nat)
    (writeOk : Bool) (freshIv : Nat) (s : Session) (store : Store) :
    Except JsErr (Session × Store × Nat × Nat) :=
  match s.db with
  | none => .error .typeError
  | some db =>
    let res := importAccounts accounts mode now db
    let s' := { s with db := some res.1 }
    .ok (s', saveDB writeOk freshIv s' store, res.2.1, res.2.2)

/-- C3 (amended): when the blob-store write fails during the persist step,
every mutating repository operation (add, update, delete, markRefreshed,
import) still completes with a normal return — `saveDB` logs and swallows
the failure, so no error is surfaced to the caller — while the in-memory
database already reflects the applied mutation and the persisted store is
unchanged (the failure rolls back neither memory nor is it reported). -/
theorem mutation_persist_failure_spec (s : Session) (db : DBFile) (store : Store)
    (freshIv : Nat) (hdb : s.db = some db) :
    (∀ f now, addAccountOp f now false freshIv s store =
      .ok ({ s with db := some (addAccount f now db).1 }, store, none)) ∧
    (∀ id fields, updateAccountOp id fields false freshIv s store =
      .ok ({ s with db := some (updateAccount id fields db).1 }, store)) ∧
    (∀ id, deleteAccountOp id false freshIv s store =
      .ok ({ s with db := some (deleteAccount id db) }, store)) ∧
    (∀ id now, markRefreshedOp id now false freshIv s store =
      .ok ({ s with db := some (markRefreshed id now db) }, store)) ∧
    (∀ accounts mode now, importAccountsOp accounts mode now false freshIv s store =
      .ok ({ s with db := some (importAccounts accounts mode now db).1 }, store,
        (importAccounts accounts mode now db).2.1,
        (importAccounts accounts mode now db).2.2)) := by
  refine ⟨?_, ?_, ?_, ?_, ?_⟩
  · intro f now
    unfold addAccountOp
    rw [hdb]
    dsimp only
    rw [saveDB_write_fails]
    rfl
  · intro id fields
    unfold updateAccountOp
    rw [hdb]
    dsimp only
    rw [saveDB_write_fails, ite_self]
  · intro id
    unfold deleteAccountOp
    rw [hdb]
    dsimp only
    rw [saveDB_write_fails]
  · intro id now
    unfold markRefreshedOp
    rw [hdb]
    dsimp only
    rw [saveDB_write_fails]
  · intro accounts mode now
    unfold importAccountsOp
    rw [hdb]
    dsimp only
    rw [saveDB_write_fails]

/-- An unlocked session over an empty database, for the C3 example. -/
def c3Session : Session :=
  { db := some emptyDBFile, cryptoKey := some (deriveKey (cu ("pw")) 3),
    cryptoSalt := some 3 }

def c3Store : Store := { accountDB := none, accountDB_encrypted := none }

/-- C3 counterexample: with the blob-store write failing, the add
operation completes with a normal return value — no error reaches the
caller — while the store is unwritten and the in-memory database holds
the new record; the persistence failure is not surfaced. -/
theorem addAccountOp_swallows_failure :
    addAccountOp c8Fields (cu ("T")) false 5 c3Session c3Store =
      .ok ({ c3Session with
        db := some (addAccount c8Fields (cu ("T")) emptyDBFile).1 }, c3Store, none) ∧
    ¬ ∃ e, addAccountOp c8Fields (cu ("T")) false 5 c3Session c3Store =
      Except.error e := by
  constructor
  · rfl
  · rintro ⟨e, he⟩
    exact Except.noConfusion he

/-- Witness for C3: the theorem applied to the concrete unlocked session
`c3Session` and the add operation. -/
theorem mutation_persist_failure_spec_witness :
    addAccountOp c8Fields (cu ("T")) false 5 c3Session c3Store =
      .ok ({ c3Session with
        db := some (addAccount c8Fields (cu ("T")) emptyDBFile).1 }, c3Store, none) :=
  (mutation_persist_failure_spec c3Session emptyDBFile c3Store 5 rfl).1
    c8Fields (cu ("T"))
